import Mathlib

/-!
# Verification of `ProcedureDefinitionModel`

A shallow embedding of
`src/assets/scripts/client/navigationLibrary/Procedure/ProcedureDefinitionModel.js`
together with theorems settling the specification's claims about it.

Modelling conventions:
* JS strings are `String`; a fix descriptor (`string | [string, restriction]`)
  is the inductive `FixDescriptor`.
* JS objects used as insertion-ordered string-keyed maps (`_entryPoints`,
  `_exitPoints`) are association lists `List (String × List FixDescriptor)`;
  key membership (`k in obj`) is `keyMem`, indexing (`obj[k]`) is `mapLookup`.
* A JS value that may be `undefined` is an `Option`; a function that may throw
  returns `Except ProcError`.
* `console.error` reports on the public waypoint lookup are modelled as a list
  of reported `ProcError`s in the successful (non-throwing) return value.
* The draw segment is `List DrawElem`, where `DrawElem.str` is a plain string
  element (as in a malformed flat `draw` array) and `DrawElem.seg` is an inner
  array of fix-name tokens; `_isArray(draw[0])` becomes `isArrayHead`.
* The lodash `_random(0, maxIndex)` draw in `getRandomExitPoint` is modelled by
  passing the drawn integer as an explicit parameter.
-/

/-- A fix descriptor from the airport JSON: either a bare fix-name string or a
two-element array `[fixName, restrictionSpec]` whose restriction payload is
opaque to this model. -/
inductive FixDescriptor where
  | bare (name : String)
  | restricted (name : String) (restriction : String)
deriving DecidableEq, Repr

/-- The external `ProcedureWaypointModel` collaborator: this core only ever
constructs it from one fix descriptor, so it is modelled as a wrapper. -/
structure ProcedureWaypointModel where
  descriptor : FixDescriptor
deriving DecidableEq, Repr

/-- One element of the raw `draw` array: a well-formed element is an inner
array of fix-name tokens (`seg`); a flat, malformed element is a plain
string (`str`). -/
inductive DrawElem where
  | str (token : String)
  | seg (tokens : List String)
deriving DecidableEq, Repr

/-- Error taxonomy for the throwing (`TypeError`) and reporting
(`console.error`) paths of the source. -/
inductive ProcError where
  | constructionError (msg : String)
  | malformedDataError (icao : String)
  | lookupError (icao : String) (key : String)
deriving DecidableEq, Repr

/-- The `PROCEDURE_TYPE` enum from `aircraftConstants`. -/
def PROCEDURE_TYPE_SID : String := "SID"

/-- The `PROCEDURE_TYPE` enum from `aircraftConstants`. -/
def PROCEDURE_TYPE_STAR : String := "STAR"

/-- The raw JSON data object handed to the constructor.  All fields a SID or
STAR definition may carry are present; `init` only reads the ones the
procedure type calls for. -/
structure RawData where
  body : List FixDescriptor
  draw : List DrawElem
  icao : String
  name : String
  rwy : List (String × List FixDescriptor)
  entryPoints : List (String × List FixDescriptor)
  exitPoints : List (String × List FixDescriptor)
deriving DecidableEq, Repr

/-- The mutable state of a `ProcedureDefinitionModel` instance: the fields
`_body`, `_draw`, `_entryPoints`, `_exitPoints`, `_icao`, `_name`,
`_procedureType`, in source declaration order. -/
structure ProcedureDefinitionModel where
  body : List FixDescriptor
  draw : List DrawElem
  entryPoints : List (String × List FixDescriptor)
  exitPoints : List (String × List FixDescriptor)
  icao : String
  name : String
  procedureType : String
deriving DecidableEq, Repr

/-- The field defaults established by the constructor before `init` runs. -/
def emptyModel : ProcedureDefinitionModel :=
  { body := [], draw := [], entryPoints := [], exitPoints := []
    icao := "", name := "", procedureType := "" }

/-- JS `key in obj` on an insertion-ordered string-keyed object. -/
def keyMem (k : String) (m : List (String × List FixDescriptor)) : Bool :=
  m.any (fun p => p.1 = k)

/-- JS `obj[k]` on an insertion-ordered string-keyed object; an absent key
yields `undefined`, which `_map` treats as the empty collection, hence the
`[]` default. -/
def mapLookup (k : String) (m : List (String × List FixDescriptor)) :
    List FixDescriptor :=
  match m.find? (fun p => p.1 = k) with
  | some p => p.2
  | none => []

/-- `init(procedureType, data)`: assigns `_body`, `_draw`, `_icao`, `_name`
and `_procedureType`, then branches on the type to fill the entry/exit maps
(`_initEntriesAndExitsForSid` / `_initEntriesAndExitsForStar`), throwing a
`TypeError` on an unknown type.  The returned state carries the mutations
already performed when the throw (the `some` error) happens. -/
def initModel (s : ProcedureDefinitionModel) (procedureType : String)
    (data : RawData) : ProcedureDefinitionModel × Option ProcError :=
  let s := { s with body := data.body, draw := data.draw, icao := data.icao
                    name := data.name, procedureType := procedureType }
  if s.procedureType = PROCEDURE_TYPE_SID then
    ({ s with entryPoints := data.rwy, exitPoints := data.exitPoints }, none)
  else if s.procedureType = PROCEDURE_TYPE_STAR then
    ({ s with entryPoints := data.entryPoints, exitPoints := data.rwy }, none)
  else
    (s, some (ProcError.constructionError "unknown procedure type"))

/-- `constructor(procedureType, data)`: throws a `TypeError` when `data` is
`undefined`, otherwise initializes the default fields and calls `init`.  A
throw anywhere leaves no usable object, hence the `Except`. -/
def mkProcedureDefinitionModel (procedureType : String)
    (data : Option RawData) : Except ProcError ProcedureDefinitionModel :=
  match data with
  | none => Except.error (ProcError.constructionError "missing procedure data")
  | some d =>
    match initModel emptyModel procedureType d with
    | (s, none) => Except.ok s
    | (_, some e) => Except.error e

/-- `reset()`: sets every field back to its default. -/
def reset (s : ProcedureDefinitionModel) : ProcedureDefinitionModel :=
  { s with body := [], draw := [], entryPoints := [], exitPoints := []
           icao := "", name := "", procedureType := "" }

/-- `hasEntry(entryName)`. -/
def hasEntry (s : ProcedureDefinitionModel) (entryName : String) : Bool :=
  keyMem entryName s.entryPoints

/-- `hasExit(exitName)`. -/
def hasExit (s : ProcedureDefinitionModel) (exitName : String) : Bool :=
  keyMem exitName s.exitPoints

/-- `_generateWaypointsForBody()`: maps every body descriptor through the
`ProcedureWaypointModel` constructor. -/
def generateWaypointsForBody (s : ProcedureDefinitionModel) :
    List ProcedureWaypointModel :=
  s.body.map ProcedureWaypointModel.mk

/-- `_generateWaypointsForEntry(entryPoint)`: throws a `TypeError` when the
key is absent, otherwise maps the entry segment through the waypoint
constructor. -/
def generateWaypointsForEntry (s : ProcedureDefinitionModel)
    (entryPoint : String) : Except ProcError (List ProcedureWaypointModel) :=
  if keyMem entryPoint s.entryPoints = false then
    Except.error (ProcError.lookupError s.icao entryPoint)
  else
    Except.ok ((mapLookup entryPoint s.entryPoints).map ProcedureWaypointModel.mk)

/-- `_generateWaypointsForExit(exitPoint)`: throws a `TypeError` when the key
is absent, otherwise maps the exit segment through the waypoint
constructor. -/
def generateWaypointsForExit (s : ProcedureDefinitionModel)
    (exitPoint : String) : Except ProcError (List ProcedureWaypointModel) :=
  if keyMem exitPoint s.exitPoints = false then
    Except.error (ProcError.lookupError s.icao exitPoint)
  else
    Except.ok ((mapLookup exitPoint s.exitPoints).map ProcedureWaypointModel.mk)

/-- `getWaypointModelsForEntryAndExit(entry, exit)`: validates both keys,
reporting via `console.error` (the first component of the `ok` value) and
returning `undefined` (`none`) on an invalid key; on success concatenates the
entry, body and exit waypoint sequences.  An uncaught throw from the internal
generators would surface as `Except.error`. -/
def getWaypointModelsForEntryAndExit (s : ProcedureDefinitionModel)
    (entry exitKey : String) :
    Except ProcError (List ProcError × Option (List ProcedureWaypointModel)) :=
  if keyMem entry s.entryPoints = false then
    Except.ok ([ProcError.lookupError s.icao entry], none)
  else if keyMem exitKey s.exitPoints = false then
    Except.ok ([ProcError.lookupError s.icao exitKey], none)
  else do
    let entryWaypointModels ← generateWaypointsForEntry s entry
    let bodyWaypointModels := generateWaypointsForBody s
    let exitWaypointModels ← generateWaypointsForExit s exitKey
    Except.ok ([], some (entryWaypointModels ++ bodyWaypointModels ++ exitWaypointModels))

/-- Remove the first occurrence of the character `c`, as JS
`String.prototype.replace` with a one-character pattern and empty
replacement does. -/
def removeFirstChar (c : Char) : List Char → List Char
  | [] => []
  | x :: xs => if x = c then xs else x :: removeFirstChar c xs

/-- `_getFixNameFromRestrictedFixArray(restrictedFix)`: take the first element
of a pair, return `undefined` when the name contains a `#`, otherwise
`name.replace('^', '').replace('@', '')` (each removing only the first
occurrence). -/
def getFixNameFromRestrictedFixArray (restrictedFix : FixDescriptor) :
    Option String :=
  let name := match restrictedFix with
    | FixDescriptor.restricted n _ => n
    | FixDescriptor.bare n => n
  if name.data.contains '#' then
    none
  else
    some (String.mk (removeFirstChar '@' (removeFirstChar '^' name.data)))

/-- `fixName.replace('*', '')` on a draw token: removes only the first
occurrence of `*`. -/
def stripDrawStar (fixName : String) : String :=
  String.mk (removeFirstChar '*' fixName.data)

/-- Worker for lodash `_uniq`: scan the list, skipping values already seen. -/
def jsUniqAux {α : Type} [DecidableEq α] (seen : List α) : List α → List α
  | [] => []
  | x :: xs =>
    if x ∈ seen then jsUniqAux seen xs else x :: jsUniqAux (x :: seen) xs

/-- lodash `_uniq`: keep the first occurrence of each value. -/
def jsUniq {α : Type} [DecidableEq α] (l : List α) : List α :=
  jsUniqAux [] l

/-- `_getFixNamesFromBody()`: maps each body descriptor through the bare-name
extraction; a `#` descriptor contributes `undefined` (`none`) to the list. -/
def getFixNamesFromBody (s : ProcedureDefinitionModel) : List (Option String) :=
  s.body.map getFixNameFromRestrictedFixArray

/-- `_getFixNamesFromEntries()`: `_forEach` over the entry map's segments in
insertion order, concatenating each segment's extracted names, then `_uniq`. -/
def getFixNamesFromEntries (s : ProcedureDefinitionModel) :
    List (Option String) :=
  jsUniq (s.entryPoints.foldl
    (fun fixNames segment =>
      fixNames ++ segment.2.map getFixNameFromRestrictedFixArray) [])

/-- `_getFixNamesFromExits()`: `_forEach` over the exit map's segments in
insertion order, concatenating each segment's extracted names, then `_uniq`. -/
def getFixNamesFromExits (s : ProcedureDefinitionModel) :
    List (Option String) :=
  jsUniq (s.exitPoints.foldl
    (fun fixNames segment =>
      fixNames ++ segment.2.map getFixNameFromRestrictedFixArray) [])

/-- JS `Array.prototype.concat` with a `DrawElem` argument: an array argument
contributes its elements, a plain string contributes itself as one element. -/
def drawElemToList : DrawElem → List String
  | DrawElem.str token => [token]
  | DrawElem.seg tokens => tokens

/-- `_getFixNamesFromDraw()`: `draw.reduce((fixList, lineSegment) =>
fixList.concat(lineSegment))` — a reduce with no initial value, so the first
draw element is the initial accumulator — then strips the first `*` of each
token.  Only called after `getAllFixNamesInUse`'s guard, which ensures `draw`
is non-empty with an array head; on an empty `draw` the JS reduce would
throw, modelled as `[]` here but unreachable behind the guard. -/
def getFixNamesFromDraw (s : ProcedureDefinitionModel) : List String :=
  match s.draw with
  | [] => []
  | e :: rest =>
    (rest.foldl (fun fixList lineSegment =>
      fixList ++ drawElemToList lineSegment) (drawElemToList e)).map stripDrawStar

/-- `_isArray(this._draw[0])`: the first element of `draw` exists and is an
inner array. -/
def isArrayHead : List DrawElem → Bool
  | DrawElem.seg _ :: _ => true
  | _ => false

/-- `getAllFixNamesInUse()`: throws a `TypeError` naming the procedure's
`icao` when `draw[0]` is not an array; otherwise concatenates the entry, body,
exit and draw name lists and deduplicates with `_uniq`.  Draw names are plain
strings, lifted with `some` into the common element type. -/
def getAllFixNamesInUse (s : ProcedureDefinitionModel) :
    Except ProcError (List (Option String)) :=
  if isArrayHead s.draw = false then
    Except.error (ProcError.malformedDataError s.icao)
  else
    Except.ok (jsUniq (getFixNamesFromEntries s ++ getFixNamesFromBody s ++
      getFixNamesFromExits s ++ (getFixNamesFromDraw s).map some))

/-- `getRandomExitPoint()` with the lodash `_random(0, maxIndex)` draw passed
explicitly: `Object.keys(exitPoints)[randomIndex]`, where an out-of-range
index (negative included) yields `undefined`. -/
def getRandomExitPoint (s : ProcedureDefinitionModel) (randomIndex : Int) :
    Option String :=
  let exitNames := s.exitPoints.map Prod.fst
  if randomIndex < 0 then none else exitNames.get? randomIndex.toNat

/-- The interval lodash `_random(lower, upper)` draws from: the bounds are
swapped when given in decreasing order. -/
def inRandomRange (lower upper r : Int) : Prop :=
  min lower upper ≤ r ∧ r ≤ max lower upper

/-- The specification's first-occurrence deduplication: fold over the list,
appending each value not already in the accumulated result. -/
def uniqFirstOccur {α : Type} [DecidableEq α] (l : List α) : List α :=
  l.foldl (fun acc x => if x ∈ acc then acc else acc ++ [x]) []

theorem mem_jsUniqAux {α : Type} [DecidableEq α] (a : α) :
    ∀ (l seen : List α), a ∈ jsUniqAux seen l ↔ a ∈ l ∧ a ∉ seen := by
  intro l
  induction l with
  | nil => intro seen; simp [jsUniqAux]
  | cons x xs ih =>
    intro seen
    by_cases hx : x ∈ seen
    · rw [jsUniqAux, if_pos hx, ih]
      constructor
      · rintro ⟨h1, h2⟩; exact ⟨List.mem_cons_of_mem _ h1, h2⟩
      · rintro ⟨h1, h2⟩
        rcases List.mem_cons.mp h1 with rfl | h1
        · exact absurd hx h2
        · exact ⟨h1, h2⟩
    · rw [jsUniqAux, if_neg hx]
      simp only [List.mem_cons, ih, List.mem_cons, not_or]
      constructor
      · rintro (rfl | ⟨h1, h2, h3⟩)
        · exact ⟨Or.inl rfl, hx⟩
        · exact ⟨Or.inr h1, h3⟩
      · rintro ⟨rfl | h1, h2⟩
        · exact Or.inl rfl
        · by_cases hax : a = x
          · exact Or.inl hax
          · exact Or.inr ⟨h1, hax, h2⟩

theorem nodup_jsUniqAux {α : Type} [DecidableEq α] :
    ∀ (l seen : List α), (jsUniqAux seen l).Nodup := by
  intro l
  induction l with
  | nil => intro seen; simp [jsUniqAux]
  | cons x xs ih =>
    intro seen
    by_cases hx : x ∈ seen
    · rw [jsUniqAux, if_pos hx]; exact ih seen
    · rw [jsUniqAux, if_neg hx]
      refine List.nodup_cons.mpr ⟨?_, ih (x :: seen)⟩
      intro hmem
      exact ((mem_jsUniqAux x xs (x :: seen)).mp hmem).2 (List.mem_cons_self x seen)

theorem mem_jsUniq {α : Type} [DecidableEq α] (a : α) (l : List α) :
    a ∈ jsUniq l ↔ a ∈ l := by
  rw [jsUniq, mem_jsUniqAux]
  simp

theorem nodup_jsUniq {α : Type} [DecidableEq α] (l : List α) :
    (jsUniq l).Nodup :=
  nodup_jsUniqAux l []

theorem foldl_dedup_eq_jsUniqAux {α : Type} [DecidableEq α] :
    ∀ (l acc seen : List α), (∀ y, y ∈ seen ↔ y ∈ acc) →
      l.foldl (fun acc x => if x ∈ acc then acc else acc ++ [x]) acc =
        acc ++ jsUniqAux seen l := by
  intro l
  induction l with
  | nil => intro acc seen _; simp [jsUniqAux]
  | cons x xs ih =>
    intro acc seen hiff
    by_cases hx : x ∈ seen
    · rw [jsUniqAux, if_pos hx, List.foldl_cons, if_pos ((hiff x).mp hx)]
      exact ih acc seen hiff
    · have hxa : x ∉ acc := fun h => hx ((hiff x).mpr h)
      rw [jsUniqAux, if_neg hx, List.foldl_cons, if_neg hxa]
      rw [ih (acc ++ [x]) (x :: seen) ?_]
      · simp
      · intro y
        simp only [List.mem_cons, List.mem_append, List.mem_singleton, hiff y]
        tauto

theorem uniqFirstOccur_eq_jsUniq {α : Type} [DecidableEq α] (l : List α) :
    uniqFirstOccur l = jsUniq l := by
  rw [uniqFirstOccur, jsUniq, foldl_dedup_eq_jsUniqAux l [] [] (fun y => Iff.rfl)]
  simp

theorem foldl_append_eq_bind {α β : Type} (f : α → List β) :
    ∀ (l : List α) (init : List β),
      l.foldl (fun acc x => acc ++ f x) init = init ++ l.bind f := by
  intro l
  induction l with
  | nil => intro init; simp
  | cons x xs ih => intro init; simp [ih, List.append_assoc]

/-- Specification reading of step 1: every entry segment's descriptors across
all entry keys, flattened in insertion order, deduplicated within the step. -/
def entryNamesSpec (s : ProcedureDefinitionModel) : List (Option String) :=
  uniqFirstOccur
    (s.entryPoints.bind (fun p => p.2.map getFixNameFromRestrictedFixArray))

/-- Specification reading of step 2: every body descriptor in order. -/
def bodyNamesSpec (s : ProcedureDefinitionModel) : List (Option String) :=
  s.body.map getFixNameFromRestrictedFixArray

/-- Specification reading of step 3: every exit segment's descriptors across
all exit keys, flattened in insertion order, deduplicated within the step. -/
def exitNamesSpec (s : ProcedureDefinitionModel) : List (Option String) :=
  uniqFirstOccur
    (s.exitPoints.bind (fun p => p.2.map getFixNameFromRestrictedFixArray))

/-- Specification reading of step 4: every draw token in order, with its `*`
stripped. -/
def drawNamesSpec (s : ProcedureDefinitionModel) : List (Option String) :=
  ((s.draw.bind drawElemToList).map stripDrawStar).map some

theorem getFixNamesFromEntries_eq_spec (s : ProcedureDefinitionModel) :
    getFixNamesFromEntries s = entryNamesSpec s := by
  rw [getFixNamesFromEntries, entryNamesSpec, uniqFirstOccur_eq_jsUniq,
    foldl_append_eq_bind (fun p => p.2.map getFixNameFromRestrictedFixArray)
      s.entryPoints []]
  rfl

theorem getFixNamesFromExits_eq_spec (s : ProcedureDefinitionModel) :
    getFixNamesFromExits s = exitNamesSpec s := by
  rw [getFixNamesFromExits, exitNamesSpec, uniqFirstOccur_eq_jsUniq,
    foldl_append_eq_bind (fun p => p.2.map getFixNameFromRestrictedFixArray)
      s.exitPoints []]
  rfl

theorem getFixNamesFromDraw_eq_spec (s : ProcedureDefinitionModel)
    (h : isArrayHead s.draw = true) :
    (getFixNamesFromDraw s).map some = drawNamesSpec s := by
  match hd : s.draw with
  | [] => rw [hd] at h; exact absurd h (by simp [isArrayHead])
  | e :: rest =>
    simp only [getFixNamesFromDraw, drawNamesSpec, hd]
    rw [foldl_append_eq_bind drawElemToList rest (drawElemToList e)]
    simp

/-- The successful internal entry generator, under a present key. -/
theorem generateWaypointsForEntry_ok (s : ProcedureDefinitionModel)
    (entry : String) (he : keyMem entry s.entryPoints = true) :
    generateWaypointsForEntry s entry =
      Except.ok ((mapLookup entry s.entryPoints).map ProcedureWaypointModel.mk) := by
  rw [generateWaypointsForEntry, he]
  rfl

/-- The successful internal exit generator, under a present key. -/
theorem generateWaypointsForExit_ok (s : ProcedureDefinitionModel)
    (exitKey : String) (hx : keyMem exitKey s.exitPoints = true) :
    generateWaypointsForExit s exitKey =
      Except.ok ((mapLookup exitKey s.exitPoints).map ProcedureWaypointModel.mk) := by
  rw [generateWaypointsForExit, hx]
  rfl

/-- Raw data of the spec's SID example:
`{rwy: {"25L": ["A1"]}, exitPoints: {"NORTH": ["B1","B2"]}, body: ["C1"]}`. -/
def sidExampleData : RawData :=
  { body := [FixDescriptor.bare "C1"]
    draw := [DrawElem.seg []]
    icao := "EXMPL", name := "example"
    rwy := [("25L", [FixDescriptor.bare "A1"])]
    entryPoints := []
    exitPoints := [("NORTH", [FixDescriptor.bare "B1", FixDescriptor.bare "B2"])] }

/-- The model the SID example constructs. -/
def sidExampleModel : ProcedureDefinitionModel :=
  { body := [FixDescriptor.bare "C1"]
    draw := [DrawElem.seg []]
    entryPoints := [("25L", [FixDescriptor.bare "A1"])]
    exitPoints := [("NORTH", [FixDescriptor.bare "B1", FixDescriptor.bare "B2"])]
    icao := "EXMPL", name := "example", procedureType := "SID" }

/-- The name a waypoint resolves to: the descriptor's name portion. -/
def fixDescriptorName : FixDescriptor → String
  | FixDescriptor.bare n => n
  | FixDescriptor.restricted n _ => n

/-- A procedure whose body holds a `#` (vector) descriptor and nothing else. -/
def hashBodyModel : ProcedureDefinitionModel :=
  { body := [FixDescriptor.bare "FIX#HDG"]
    draw := [DrawElem.seg []]
    entryPoints := [], exitPoints := []
    icao := "KHSH", name := "hash", procedureType := "SID" }

/-- A procedure with a malformed, flat `draw` array `["FIXA", "FIXB"]`. -/
def flatDrawModel : ProcedureDefinitionModel :=
  { body := []
    draw := [DrawElem.str "FIXA", DrawElem.str "FIXB"]
    entryPoints := [], exitPoints := []
    icao := "KFLT", name := "flat", procedureType := "SID" }

/-- A small procedure used to instantiate hypotheses at concrete inputs. -/
def twoExitModel : ProcedureDefinitionModel :=
  { body := [FixDescriptor.bare "BODY1"]
    draw := [DrawElem.seg ["BODY1", "EXITA*"]]
    entryPoints := [("07R", [FixDescriptor.restricted "ENTR1" "A100"])]
    exitPoints := [("EXITA", [FixDescriptor.bare "EXITA"]),
                   ("EXITB", [FixDescriptor.bare "EXITB"])]
    icao := "KTWO", name := "two", procedureType := "STAR" }

/-- Claim C1: for every procedure and every entry key of `entryPoints` and
exit key of `exitPoints`, `getWaypointModelsForEntryAndExit` returns the
concatenation of the entry segment, all body descriptors and the exit
segment, each mapped through the external waypoint constructor, so its length
is the sum of the three segment lengths; and the spec's SID example
`{rwy: {25L: [A1]}, exitPoints: {NORTH: [B1,B2]}, body: [C1]}` yields fixes
in order A1, C1, B1, B2. -/
theorem getWaypointModels_concat_of_valid_keys (s : ProcedureDefinitionModel)
    (entry exitKey : String) (he : keyMem entry s.entryPoints = true)
    (hx : keyMem exitKey s.exitPoints = true) :
    (getWaypointModelsForEntryAndExit s entry exitKey =
      Except.ok ([], some
        ((mapLookup entry s.entryPoints).map ProcedureWaypointModel.mk ++
          s.body.map ProcedureWaypointModel.mk ++
          (mapLookup exitKey s.exitPoints).map ProcedureWaypointModel.mk)) ∧
     ∀ reports result,
       getWaypointModelsForEntryAndExit s entry exitKey =
         Except.ok (reports, some result) →
       result.length = (mapLookup entry s.entryPoints).length + s.body.length +
         (mapLookup exitKey s.exitPoints).length) ∧
    (mkProcedureDefinitionModel PROCEDURE_TYPE_SID (some sidExampleData) =
      Except.ok sidExampleModel ∧
     ∃ result, getWaypointModelsForEntryAndExit sidExampleModel "25L" "NORTH" =
         Except.ok ([], some result) ∧
       result.map (fun w => fixDescriptorName w.descriptor) =
         ["A1", "C1", "B1", "B2"]) := by
  have hmain : getWaypointModelsForEntryAndExit s entry exitKey =
      Except.ok ([], some
        ((mapLookup entry s.entryPoints).map ProcedureWaypointModel.mk ++
          s.body.map ProcedureWaypointModel.mk ++
          (mapLookup exitKey s.exitPoints).map ProcedureWaypointModel.mk)) := by
    rw [getWaypointModelsForEntryAndExit, he, hx]
    simp only [Bool.true_eq_false, if_false]
    rw [generateWaypointsForEntry_ok s entry he,
      generateWaypointsForExit_ok s exitKey hx]
    rfl
  refine ⟨⟨hmain, ?_⟩, rfl, ?_⟩
  · intro reports result hres
    rw [hmain] at hres
    have hlists := (Prod.mk.injEq _ _ _ _).mp (Except.ok.inj hres)
    have hr := Option.some.inj hlists.2
    rw [← hr]
    simp [List.length_append]
    ring
  · exact ⟨[ProcedureWaypointModel.mk (FixDescriptor.bare "A1"),
      ProcedureWaypointModel.mk (FixDescriptor.bare "C1"),
      ProcedureWaypointModel.mk (FixDescriptor.bare "B1"),
      ProcedureWaypointModel.mk (FixDescriptor.bare "B2")], rfl, rfl⟩

/-- Witness for claim C1's theorem at the concrete `twoExitModel` with its
entry `07R` and exit `EXITB`. -/
theorem getWaypointModels_concat_of_valid_keys_witness :
    getWaypointModelsForEntryAndExit twoExitModel "07R" "EXITB" =
      Except.ok ([], some
        [ProcedureWaypointModel.mk (FixDescriptor.restricted "ENTR1" "A100"),
         ProcedureWaypointModel.mk (FixDescriptor.bare "BODY1"),
         ProcedureWaypointModel.mk (FixDescriptor.bare "EXITB")]) := by
  have h :=
    (getWaypointModels_concat_of_valid_keys twoExitModel "07R" "EXITB" rfl rfl).1.1
  exact h.trans rfl

/-- Claim C2: construction requires defined raw data (else a
ConstructionError for missing data); with defined data, a SID takes
`entryPoints` from `rwy` and `exitPoints` from `exitPoints`, a STAR takes
`entryPoints` from `entryPoints` and `exitPoints` from `rwy`, and any other
procedure type fails with a ConstructionError for an unknown type. -/
theorem construction_requires_data_and_branches (pt : String)
    (d : Option RawData) :
    (d = none → mkProcedureDefinitionModel pt d =
      Except.error (ProcError.constructionError "missing procedure data")) ∧
    (∀ rd, d = some rd → pt = PROCEDURE_TYPE_SID →
      mkProcedureDefinitionModel pt d = Except.ok
        { body := rd.body, draw := rd.draw, entryPoints := rd.rwy
          exitPoints := rd.exitPoints, icao := rd.icao, name := rd.name
          procedureType := pt }) ∧
    (∀ rd, d = some rd → pt = PROCEDURE_TYPE_STAR →
      mkProcedureDefinitionModel pt d = Except.ok
        { body := rd.body, draw := rd.draw, entryPoints := rd.entryPoints
          exitPoints := rd.rwy, icao := rd.icao, name := rd.name
          procedureType := pt }) ∧
    (∀ rd, d = some rd → pt ≠ PROCEDURE_TYPE_SID → pt ≠ PROCEDURE_TYPE_STAR →
      mkProcedureDefinitionModel pt d =
        Except.error (ProcError.constructionError "unknown procedure type")) := by
  refine ⟨?_, ?_, ?_, ?_⟩
  · rintro rfl; rfl
  · rintro rd rfl rfl; rfl
  · rintro rd rfl rfl; rfl
  · rintro rd rfl h1 h2
    simp [mkProcedureDefinitionModel, initModel, h1, h2]

/-- Witness for claim C2's theorem: the SID branch at the example data and
the missing-data branch. -/
theorem construction_requires_data_and_branches_witness :
    mkProcedureDefinitionModel PROCEDURE_TYPE_SID (some sidExampleData) =
      Except.ok
        { body := sidExampleData.body, draw := sidExampleData.draw
          entryPoints := sidExampleData.rwy
          exitPoints := sidExampleData.exitPoints, icao := sidExampleData.icao
          name := sidExampleData.name, procedureType := PROCEDURE_TYPE_SID } ∧
    mkProcedureDefinitionModel "ILS" none =
      Except.error (ProcError.constructionError "missing procedure data") :=
  ⟨(construction_requires_data_and_branches PROCEDURE_TYPE_SID
      (some sidExampleData)).2.1 sidExampleData rfl rfl,
   (construction_requires_data_and_branches "ILS" none).1 rfl⟩

/-- Claim C3 (evaluating the code at the failing input): a body descriptor
whose name contains `#` is NOT excluded from `getAllFixNamesInUse`'s result;
the bare `return;` in `_getFixNameFromRestrictedFixArray` makes `_map`
contribute an `undefined` placeholder (`none`), which `_uniq` keeps, so the
result is the one-element list `[undefined]` rather than the empty list the
claim requires. -/
theorem hash_descriptor_leaves_placeholder :
    getAllFixNamesInUse hashBodyModel = Except.ok [none] ∧
    getAllFixNamesInUse hashBodyModel ≠ Except.ok [] := by
  constructor
  · rfl
  · intro h
    have h2 : (Except.ok [none] :
        Except ProcError (List (Option String))) = Except.ok [] := by
      rw [← h]
      rfl
    injection h2 with h3
    exact List.cons_ne_nil none [] h3

/-- Claim C4: an absent entry key makes the public
`getWaypointModelsForEntryAndExit` report a LookupError naming the procedure
and the key and yield no result without throwing (`Except.ok` with a report
and `none`), while the internal generator throws (`Except.error`); and
symmetrically for an absent exit key. -/
theorem public_lookup_soft_internal_hard (s : ProcedureDefinitionModel)
    (k : String) :
    (keyMem k s.entryPoints = false →
      (∀ e, getWaypointModelsForEntryAndExit s k e =
        Except.ok ([ProcError.lookupError s.icao k], none)) ∧
      generateWaypointsForEntry s k =
        Except.error (ProcError.lookupError s.icao k)) ∧
    (keyMem k s.exitPoints = false →
      (∀ e, keyMem e s.entryPoints = true →
        getWaypointModelsForEntryAndExit s e k =
          Except.ok ([ProcError.lookupError s.icao k], none)) ∧
      generateWaypointsForExit s k =
        Except.error (ProcError.lookupError s.icao k)) := by
  constructor
  · intro hek
    constructor
    · intro e
      rw [getWaypointModelsForEntryAndExit, hek, if_pos rfl]
    · rw [generateWaypointsForEntry, hek, if_pos rfl]
  · intro hxk
    constructor
    · intro e he
      rw [getWaypointModelsForEntryAndExit, he, hxk]
      simp only [Bool.true_eq_false, if_false]
      rw [if_pos trivial]
    · rw [generateWaypointsForExit, hxk, if_pos rfl]

/-- Witness for claim C4's theorem at the concrete `sidExampleModel` with the
absent key `NOPE`. -/
theorem public_lookup_soft_internal_hard_witness :
    getWaypointModelsForEntryAndExit sidExampleModel "NOPE" "NORTH" =
      Except.ok ([ProcError.lookupError "EXMPL" "NOPE"], none) ∧
    generateWaypointsForEntry sidExampleModel "NOPE" =
      Except.error (ProcError.lookupError "EXMPL" "NOPE") ∧
    getWaypointModelsForEntryAndExit sidExampleModel "25L" "NOPE" =
      Except.ok ([ProcError.lookupError "EXMPL" "NOPE"], none) ∧
    generateWaypointsForExit sidExampleModel "NOPE" =
      Except.error (ProcError.lookupError "EXMPL" "NOPE") := by
  have h1 := (public_lookup_soft_internal_hard sidExampleModel "NOPE").1 rfl
  have h2 := (public_lookup_soft_internal_hard sidExampleModel "NOPE").2 rfl
  exact ⟨h1.1 "NORTH", h1.2, h2.1 "25L" rfl, h2.2⟩

/-- Claim C5: with a well-formed draw head, `getAllFixNamesInUse` equals the
first-occurrence deduplication of the four steps concatenated in order —
entry names (deduplicated within the step), body names, exit names
(deduplicated within the step), draw tokens with `*` stripped — and the
result contains no duplicates. -/
theorem getAllFixNamesInUse_four_steps (s : ProcedureDefinitionModel)
    (h : isArrayHead s.draw = true) :
    getAllFixNamesInUse s = Except.ok (uniqFirstOccur
      (entryNamesSpec s ++ bodyNamesSpec s ++ exitNamesSpec s ++
        drawNamesSpec s)) ∧
    ∀ names, getAllFixNamesInUse s = Except.ok names → names.Nodup := by
  have hmain : getAllFixNamesInUse s =
      Except.ok (jsUniq (getFixNamesFromEntries s ++ getFixNamesFromBody s ++
        getFixNamesFromExits s ++ (getFixNamesFromDraw s).map some)) := by
    rw [getAllFixNamesInUse, h]
    simp only [Bool.true_eq_false, if_false]
  constructor
  · rw [hmain, uniqFirstOccur_eq_jsUniq, getFixNamesFromEntries_eq_spec,
      getFixNamesFromExits_eq_spec, getFixNamesFromDraw_eq_spec s h]
    rfl
  · intro names hnames
    rw [hmain] at hnames
    have : jsUniq (getFixNamesFromEntries s ++ getFixNamesFromBody s ++
        getFixNamesFromExits s ++ (getFixNamesFromDraw s).map some) = names :=
      Except.ok.inj hnames
    rw [← this]
    exact nodup_jsUniq _

/-- Witness for claim C5's theorem at the concrete `twoExitModel`. -/
theorem getAllFixNamesInUse_four_steps_witness :
    getAllFixNamesInUse twoExitModel =
      Except.ok [some "ENTR1", some "BODY1", some "EXITA", some "EXITB"] ∧
    ([some "ENTR1", some "BODY1", some "EXITA", some "EXITB"] :
      List (Option String)).Nodup := by
  have h := getAllFixNamesInUse_four_steps twoExitModel rfl
  exact ⟨h.1.trans rfl, h.2 _ (h.1.trans rfl)⟩

/-- Claim C6: a `draw` whose first element is not itself an array — the empty
draw included — makes `getAllFixNamesInUse` fail with a MalformedDataError
naming the procedure's icao, with no partial result. -/
theorem getAllFixNamesInUse_malformed_draw (s : ProcedureDefinitionModel)
    (h : s.draw = [] ∨ ∃ t rest, s.draw = DrawElem.str t :: rest) :
    getAllFixNamesInUse s = Except.error (ProcError.malformedDataError s.icao) := by
  have hhead : isArrayHead s.draw = false := by
    rcases h with h | ⟨t, rest, h⟩ <;> rw [h] <;> rfl
  rw [getAllFixNamesInUse, hhead, if_pos rfl]

/-- Witness for claim C6's theorem at the flat draw `[FIXA, FIXB]`. -/
theorem getAllFixNamesInUse_malformed_draw_witness :
    getAllFixNamesInUse flatDrawModel =
      Except.error (ProcError.malformedDataError "KFLT") :=
  getAllFixNamesInUse_malformed_draw flatDrawModel
    (Or.inr ⟨"FIXA", [DrawElem.str "FIXB"], rfl⟩)

/-- Counterexample to claim C7: the source's `replace('^', '')` removes only
the FIRST occurrence of the character, not every occurrence as the claim
states — on the descriptor `^^FIXA` the code yields `^FIXA`, not `FIXA`; and
the draw stripper removes the first `*` wherever it sits, not the trailing
one — on the token `FI*XC*` the code yields `FIXC*`, not `FI*XC`. -/
theorem bare_name_rule_counterexample :
    getFixNameFromRestrictedFixArray (FixDescriptor.bare "^^FIXA") =
      some "^FIXA" ∧
    some "^FIXA" ≠ some "FIXA" ∧
    stripDrawStar "FI*XC*" = "FIXC*" ∧
    "FIXC*" ≠ "FI*XC" := by
  refine ⟨rfl, ?_, rfl, ?_⟩ <;> decide

/-- Claim C7 as amended: the bare-name rule takes the first element of a pair
(else the string itself) and removes the FIRST occurrence of `^` and the
FIRST occurrence of `@` from the name (so `^FIXA` yields `FIXA` and `@FIXB`
yields `FIXB`); each draw token has the first occurrence of `*` removed (so
`FIXC*` yields `FIXC`). -/
theorem bare_name_rule_first_occurrence :
    (∀ n r, getFixNameFromRestrictedFixArray (FixDescriptor.restricted n r) =
      getFixNameFromRestrictedFixArray (FixDescriptor.bare n)) ∧
    (∀ (c : Char) (l : List Char), c ∉ l → removeFirstChar c l = l) ∧
    (∀ (c : Char) (l1 l2 : List Char), c ∉ l1 →
      removeFirstChar c (l1 ++ c :: l2) = l1 ++ l2) ∧
    getFixNameFromRestrictedFixArray (FixDescriptor.bare "^FIXA") =
      some "FIXA" ∧
    getFixNameFromRestrictedFixArray (FixDescriptor.bare "@FIXB") =
      some "FIXB" ∧
    stripDrawStar "FIXC*" = "FIXC" := by
  refine ⟨fun n r => rfl, ?_, ?_, rfl, rfl, rfl⟩
  · intro c l hc
    induction l with
    | nil => rfl
    | cons x xs ih =>
      have hx : ¬ x = c := fun hxc => hc (hxc ▸ List.mem_cons_self x xs)
      rw [removeFirstChar, if_neg hx,
        ih (fun hmem => hc (List.mem_cons_of_mem x hmem))]
  · intro c l1 l2 hc
    induction l1 with
    | nil => rw [List.nil_append, removeFirstChar, if_pos rfl]; rfl
    | cons x xs ih =>
      have hx : ¬ x = c := fun hxc => hc (hxc ▸ List.mem_cons_self x xs)
      rw [List.cons_append, removeFirstChar, if_neg hx,
        ih (fun hmem => hc (List.mem_cons_of_mem x hmem))]
      rfl

/-- Witness for claim C7's amended theorem at concrete characters and
lists. -/
theorem bare_name_rule_first_occurrence_witness :
    removeFirstChar '^' ['F', 'I', 'X'] = ['F', 'I', 'X'] ∧
    removeFirstChar '@' (['F', 'I'] ++ '@' :: ['X']) = ['F', 'I'] ++ ['X'] ∧
    getFixNameFromRestrictedFixArray (FixDescriptor.restricted "^FIXA" "A100") =
      getFixNameFromRestrictedFixArray (FixDescriptor.bare "^FIXA") := by
  have h := bare_name_rule_first_occurrence
  exact ⟨h.2.1 '^' ['F', 'I', 'X'] (by decide),
    h.2.2.1 '@' ['F', 'I'] ['X'] (by decide), h.1 "^FIXA" "A100"⟩

/-- Claim C8: with a non-empty exit map, every random draw in
`[0, keyCount - 1]` makes `getRandomExitPoint` return the exit key at that
index in insertion order, hence a key of `exitPoints`; with an empty exit
map it returns `undefined` (`none`) from the out-of-range index instead of
raising. -/
theorem getRandomExitPoint_key_or_undefined (s : ProcedureDefinitionModel)
    (r : Int) :
    (0 ≤ r → r.toNat < s.exitPoints.length →
      getRandomExitPoint s r = (s.exitPoints.map Prod.fst).get? r.toNat ∧
      ∀ k, getRandomExitPoint s r = some k → keyMem k s.exitPoints = true) ∧
    (s.exitPoints = [] → getRandomExitPoint s r = none) := by
  constructor
  · intro h0 _
    have hneg : ¬ r < 0 := not_lt.mpr h0
    have hval : getRandomExitPoint s r = (s.exitPoints.map Prod.fst).get? r.toNat := by
      rw [getRandomExitPoint]
      simp [hneg]
    refine ⟨hval, ?_⟩
    intro k hk
    rw [hval] at hk
    have hmem : k ∈ s.exitPoints.map Prod.fst := List.get?_mem hk
    rw [keyMem, List.any_eq_true]
    rcases List.mem_map.mp hmem with ⟨p, hp, hpk⟩
    exact ⟨p, hp, by simp [hpk]⟩
  · intro hempty
    rw [getRandomExitPoint, hempty]
    simp

/-- Witness for claim C8's theorem: index 1 of `twoExitModel`'s two exits,
and the empty model. -/
theorem getRandomExitPoint_key_or_undefined_witness :
    getRandomExitPoint twoExitModel 1 = some "EXITB" ∧
    keyMem "EXITB" twoExitModel.exitPoints = true ∧
    getRandomExitPoint emptyModel 0 = none := by
  have h := (getRandomExitPoint_key_or_undefined twoExitModel 1).1
    (by decide) (by decide)
  have he := (getRandomExitPoint_key_or_undefined emptyModel 0).2 rfl
  exact ⟨h.1.trans rfl, h.2 "EXITB" (h.1.trans rfl), he⟩

/-- Claim C9: `reset` sets every field to its empty default — `[]` for body
and draw, `{}` for the entry and exit maps, the empty string for icao, name
and procedureType — and is idempotent. -/
theorem reset_defaults_and_idempotent (s : ProcedureDefinitionModel) :
    (reset s).body = [] ∧ (reset s).draw = [] ∧ (reset s).entryPoints = [] ∧
    (reset s).exitPoints = [] ∧ (reset s).icao = "" ∧ (reset s).name = "" ∧
    (reset s).procedureType = "" ∧ reset (reset s) = reset s :=
  ⟨rfl, rfl, rfl, rfl, rfl, rfl, rfl, rfl⟩

/-- Claim C10: `init` with an unknown procedure type signals its error only
after `body`, `draw`, `icao`, `name` and `procedureType` have been
overwritten with the new data, while `entryPoints` and `exitPoints` keep
their previous values — the failing initialization is not atomic. -/
theorem init_unknown_type_partial_mutation (s : ProcedureDefinitionModel)
    (pt : String) (d : RawData) (h1 : pt ≠ PROCEDURE_TYPE_SID)
    (h2 : pt ≠ PROCEDURE_TYPE_STAR) :
    (initModel s pt d).2 =
      some (ProcError.constructionError "unknown procedure type") ∧
    (initModel s pt d).1.body = d.body ∧
    (initModel s pt d).1.draw = d.draw ∧
    (initModel s pt d).1.icao = d.icao ∧
    (initModel s pt d).1.name = d.name ∧
    (initModel s pt d).1.procedureType = pt ∧
    (initModel s pt d).1.entryPoints = s.entryPoints ∧
    (initModel s pt d).1.exitPoints = s.exitPoints := by
  have hm : initModel s pt d =
      ({ s with body := d.body, draw := d.draw, icao := d.icao
                name := d.name, procedureType := pt },
       some (ProcError.constructionError "unknown procedure type")) := by
    simp [initModel, h1, h2]
  rw [hm]
  exact ⟨rfl, rfl, rfl, rfl, rfl, rfl, rfl, rfl⟩

/-- Witness for claim C10's theorem: re-initializing the already-initialized
`twoExitModel` with an unknown type leaves its old exit map in place beside
the new body. -/
theorem init_unknown_type_partial_mutation_witness :
    (initModel twoExitModel "ILS" sidExampleData).2 =
      some (ProcError.constructionError "unknown procedure type") ∧
    (initModel twoExitModel "ILS" sidExampleData).1.exitPoints =
      twoExitModel.exitPoints ∧
    (initModel twoExitModel "ILS" sidExampleData).1.body =
      sidExampleData.body := by
  have h := init_unknown_type_partial_mutation twoExitModel "ILS"
    sidExampleData (by decide) (by decide)
  exact ⟨h.1, h.2.2.2.2.2.2.2, h.2.1⟩
